import Mathlib

/-!
Shallow embedding of the trivia-server room logic
(`src/test_lobby/roombase.js`, `src/test_lobby/trivia-room.js`,
`src/test_lobby/question-source.js`) and proofs about it.

Users are identified by nickname (the server enforces unique nicknames in
`user.js`), so the member list, the per-user statistics map and the set of
registered socket listeners are all keyed by nickname strings here.
JavaScript numbers that only ever hold integers are modelled as `Int`
(or `Nat` for counters that never go negative in the code).
-/

namespace Trivia

/-- Difficulty names, as the string constants of `trivia-room.js`. -/
def difficultyEasy : String := "easy"

def difficultyMedium : String := "medium"

def difficultyHard : String := "hard"

/-- `UserStatistics` from `trivia-room.js` (lines 77-87). -/
structure UserStatistics where
  points : Int
  pointsChange : Int
  questionsRight : Nat
  questionsWrong : Nat
  selectedAnswerIndex : Int
deriving DecidableEq, Repr

/-- The constructor defaults: `new UserStatistics()`. -/
def UserStatistics.fresh : UserStatistics :=
  { points := 0, pointsChange := 0, questionsRight := 0, questionsWrong := 0,
    selectedAnswerIndex := -1 }

/-- `TriviaQuestion` from `trivia-room.js` (lines 38-59). -/
structure TriviaQuestion where
  question : String
  answers : List String
  correctAnswerIndex : Int
  categoryName : String
  difficulty : String
deriving DecidableEq, Repr

/-- `TriviaQuestion.getPointValue` (trivia-room.js lines 49-58). -/
def TriviaQuestion.getPointValue (q : TriviaQuestion) : Int :=
  if q.difficulty = difficultyEasy then 10
  else if q.difficulty = difficultyMedium then 25
  else if q.difficulty = difficultyHard then 50
  else 0

/-- `RoomConfiguration` from `trivia-room.js` (lines 92-116).
The category is kept as its id (or `none`). -/
structure RoomConfiguration where
  category : Option Nat
  difficulty : Option String
  maxSeconds : Int
  canSkipQuestions : Bool
  questionCount : Nat
deriving DecidableEq, Repr

/-! ### JavaScript-object maps

`this.userStats` is a plain JS object keyed by nickname; we model it as an
association list with first-match lookup and replace-or-append update. -/

/-- Lookup `m[k]`, `none` when the key is absent. -/
def objGet (m : List (String × UserStatistics)) (k : String) : Option UserStatistics :=
  (m.find? (fun p => p.1 == k)).map (·.2)

/-- Assignment `m[k] = v`: replace the existing entry in place, or append. -/
def objSet (m : List (String × UserStatistics)) (k : String) (v : UserStatistics) :
    List (String × UserStatistics) :=
  if m.any (fun p => p.1 == k) then
    m.map (fun p => if p.1 == k then (k, v) else p)
  else m ++ [(k, v)]

/-! ### Room state

One record covering the fields of `RoomBase` and `TriviaRoom` that the
game logic reads or writes.  `listeners` records, per registered `answer`
socket listener, the nickname it was registered for (each call to
`TriviaRoom.addUser` appends one). -/

structure Room where
  users : List String
  userStats : List (String × UserStatistics)
  listeners : List String
  secondsLeft : Int
  currentQuestion : Option TriviaQuestion
  acceptAnswers : Bool
  questionsAnswered : Nat
  config : RoomConfiguration
deriving DecidableEq, Repr

/-- `RoomBase.isUserInRoom` (roombase.js lines 74-77). -/
def Room.isUserInRoom (r : Room) (nick : String) : Bool :=
  r.users.contains nick

/-- `TriviaRoom.addUser` (trivia-room.js lines 144-175) composed with
`RoomBase.addUser` (roombase.js lines 14-29): the base method returns early
when the user is already in the room, but the subclass then unconditionally
overwrites the stats entry with a fresh `UserStatistics` and registers one
more `answer` listener on the user's socket. -/
def Room.addUser (r : Room) (nick : String) : Room :=
  let r :=
    if r.isUserInRoom nick then r
    else { r with users := r.users ++ [nick] }
  { r with
    userStats := objSet r.userStats nick UserStatistics.fresh,
    listeners := r.listeners ++ [nick] }

/-- The `answer` socket listener installed by `TriviaRoom.addUser`
(trivia-room.js lines 154-164): record the submitted index only when the
member has stats, has no recorded selection, and the room accepts answers;
otherwise do nothing. -/
def Room.submitAnswer (r : Room) (nick : String) (answerNumber : Int) : Room :=
  match objGet r.userStats nick with
  | none => r
  | some stats =>
    if stats.selectedAnswerIndex == -1 && r.acceptAnswers then
      { r with userStats :=
          objSet r.userStats nick { stats with selectedAnswerIndex := answerNumber } }
    else r

/-- The `answerResult` codes of trivia-room.js lines 30-35. -/
def answerIncorrect : Nat := 0

def answerCorrect : Nat := 1

def answerSkipped : Nat := 2

/-- The per-member body of `TriviaRoom.sendAnswerResultsAndResetSelections`
(trivia-room.js lines 209-244): decide skip/correct/incorrect, set
`pointsChange` and the right/wrong counters, add `pointsChange` to `points`
and floor the result at zero.  Returns the updated stats and the emitted
`answer result` code. -/
def gradeMember (stats : UserStatistics) (q : TriviaQuestion) (cfg : RoomConfiguration) :
    UserStatistics × Nat :=
  let graded :=
    if stats.selectedAnswerIndex == -1 && cfg.canSkipQuestions then
      ({ stats with pointsChange := 0, questionsWrong := stats.questionsWrong + 1 },
       answerSkipped)
    else if stats.selectedAnswerIndex == q.correctAnswerIndex then
      ({ stats with pointsChange := q.getPointValue,
                    questionsRight := stats.questionsRight + 1 },
       answerCorrect)
    else
      ({ stats with pointsChange := -q.getPointValue,
                    questionsWrong := stats.questionsWrong + 1 },
       answerIncorrect)
  let s := graded.1
  let s := { s with points := s.points + s.pointsChange }
  let s := if s.points < 0 then { s with points := 0 } else s
  (s, graded.2)

/-- `TriviaRoom.sendAnswerResultsAndResetSelections` (trivia-room.js lines
205-253): when a question is current, grade every member in `users` order,
then reset every stats entry's `selectedAnswerIndex` to -1. -/
def Room.gradeAll (r : Room) : Room :=
  match r.currentQuestion with
  | none => r
  | some q =>
    let stats := r.users.foldl
      (fun m nick =>
        match objGet m nick with
        | some s => objSet m nick (gradeMember s q r.config).1
        | none => m)
      r.userStats
    let stats := stats.map (fun p => (p.1, { p.2 with selectedAnswerIndex := -1 }))
    { r with userStats := stats }

/-! ### Question installation and the countdown timer -/

/-- The member-visible events emitted by the room code. -/
inductive Event where
  | secondsLeft (n : Int)
  | setQuestion (q : TriviaQuestion) (questionNumber : Nat) (questionCount : Nat)
  | endQuestion
deriving DecidableEq, Repr

/-- `TriviaRoom.sendCurrentQuestionToAll` (trivia-room.js lines 280-294):
broadcast the current question augmented with `questionNumber =
questionsAnswered + 1` and `questionCount = config.questionCount`. -/
def Room.sendCurrentQuestionToAll (r : Room) : List Event :=
  match r.currentQuestion with
  | some q => [Event.setQuestion q (r.questionsAnswered + 1) r.config.questionCount]
  | none => []

/-- `TriviaRoom.setNewQuestion` (trivia-room.js lines 344-351): store the
question, set `secondsLeft = config.maxSeconds`, then emit
`seconds left` with the pre-decremented `--this.secondsLeft`, and broadcast
the question.  Returns the new room state and the emitted events. -/
def Room.setNewQuestion (r : Room) (q : TriviaQuestion) : Room × List Event :=
  let r := { r with currentQuestion := some q, secondsLeft := r.config.maxSeconds }
  let r := { r with secondsLeft := r.secondsLeft - 1 }
  (r, Event.secondsLeft r.secondsLeft :: r.sendCurrentQuestionToAll)

/-- The success continuation of `TriviaRoom.requestNewQuestion`
(trivia-room.js lines 361-366): set `acceptAnswers = true`, install the
question, start the timer. -/
def Room.onQuestionSuccess (r : Room) (q : TriviaQuestion) : Room × List Event :=
  Room.setNewQuestion { r with acceptAnswers := true } q

/-- `TriviaRoom.isGameOver` (trivia-room.js lines 391-394). -/
def Room.isGameOver (r : Room) : Bool :=
  r.questionsAnswered == r.config.questionCount && r.config.questionCount != 0

/-- What the `timer` callback does after grading (trivia-room.js lines
464-473): either schedule the next question request or end the game. -/
inductive TimerAction where
  | requestNewQuestion
  | gameOver
deriving DecidableEq, Repr

/-- The `secondsLeft === 0` branch of `timer` (trivia-room.js lines 456-474):
one grading pass.  Increment `questionsAnswered`, lock answers, grade, then
either request a new question or finish the game. -/
def Room.timerExpire (r : Room) : Room × TimerAction :=
  let r := { r with questionsAnswered := r.questionsAnswered + 1, acceptAnswers := false }
  let r := r.gradeAll
  if !r.isGameOver then (r, TimerAction.requestNewQuestion)
  else (r, TimerAction.gameOver)

/-- The room state after `n` grading passes. -/
def Room.runPasses (r : Room) : Nat → Room
  | 0 => r
  | n + 1 => Room.runPasses r.timerExpire.1 n

/-! ### Final ranking comparator -/

/-- One entry of `getUserStats()` output, as consumed by `compareStats`. -/
structure MemberStats where
  nickname : String
  points : Int
  questionsRight : Nat
  questionsWrong : Nat
deriving DecidableEq, Repr

/-- The accuracy value `questionsRight / (questionsRight + questionsWrong)`
computed in `compareStats` (trivia-room.js lines 488-492).  The JS division
is a float division; for the integer counts in play its comparisons agree
with exact rational comparison, so the value is modelled as `Option ℚ`,
`none` standing for the NaN produced by `0 / 0`. -/
def accuracyOf (s : MemberStats) : Option ℚ :=
  let qCount := s.questionsRight + s.questionsWrong
  if qCount = 0 then none
  else some ((s.questionsRight : ℚ) / (qCount : ℚ))

/-- JavaScript `>` on the ratio values: any comparison with NaN is false. -/
def jsGt : Option ℚ → Option ℚ → Bool
  | some x, some y => decide (x > y)
  | _, _ => false

/-- JavaScript `<` on the ratio values: any comparison with NaN is false. -/
def jsLt : Option ℚ → Option ℚ → Bool
  | some x, some y => decide (x < y)
  | _, _ => false

/-- `compareStats` (trivia-room.js lines 482-498), the sort comparator for
the game-over ranking: descending points, then descending accuracy, with
JS NaN comparison semantics when a member has answered no questions. -/
def compareStats (a b : MemberStats) : Int :=
  if a.points > b.points then -1
  else if a.points < b.points then 1
  else
    let aRat := accuracyOf a
    let bRat := accuracyOf b
    if jsGt aRat bRat then -1
    else if jsLt aRat bRat then 1
    else 0

/-! ### RoomBase.removeUser and JS array splice -/

/-- JavaScript `Array.prototype.findIndex`: index of the first match, or -1. -/
def jsFindIndex (p : α → Bool) (l : List α) : Int :=
  match l.findIdx? p with
  | some i => (i : Int)
  | none => -1

/-- JavaScript `l.splice(start, 1)` (the mutated array): a negative `start`
counts from the end, clamped at 0; a too-large `start` is clamped at the
length. -/
def spliceRemoveOne (l : List α) (start : Int) : List α :=
  let s : Nat :=
    if start < 0 then ((l.length : Int) + start).toNat
    else min start.toNat l.length
  l.take s ++ l.drop (s + 1)

/-- `RoomBase.removeUser` (roombase.js lines 32-41) restricted to the member
list: `users.splice(users.findIndex(u => u === user), 1)` — the found index
(or -1) is passed to splice unconditionally. -/
def removeUserList (users : List String) (nick : String) : List String :=
  spliceRemoveOne users (jsFindIndex (fun u => u == nick) users)

/-! ### Question source (`question-source.js`) -/

/-- One raw question record of the supplier's response
(`response.data.results[0]`). -/
structure RawQuestion where
  question : String
  correctAnswer : String
  incorrectAnswers : List String
  category : String
  difficulty : String
deriving DecidableEq, Repr

/-- One step of the shuffle loop in `makeQuestionRequest` (question-source.js
lines 147-154): swap positions `i` and `newIndex`.  Out-of-range indices
cannot occur in the source (the random index is always `< answers.length`);
the fallback leaves the list unchanged. -/
def jsSwap (l : List α) (i j : Nat) : List α :=
  match l[i]?, l[j]? with
  | some a, some b => (l.set i b).set j a
  | _, _ => l

/-- The shuffle loop, iterating `i` upward with one random index per step. -/
def shuffleFrom (l : List α) : Nat → List Nat → List α
  | _, [] => l
  | i, j :: rest => shuffleFrom (jsSwap l i j) (i + 1) rest

/-- The whole shuffle of `makeQuestionRequest`: `seeds` is the sequence of
values `Math.floor(Math.random() * answers.length)` drawn by the loop. -/
def shuffle (seeds : List Nat) (l : List α) : List α :=
  shuffleFrom l 0 seeds

/-- The normalization in `makeQuestionRequest` (question-source.js lines
139-164): push the correct answer onto the incorrect list, shuffle, and set
`correctAnswerIndex` by `findIndex` on the correct text. -/
def normalizeQuestion (raw : RawQuestion) (seeds : List Nat) : TriviaQuestion :=
  let answers := shuffle seeds (raw.incorrectAnswers ++ [raw.correctAnswer])
  { question := raw.question,
    answers := answers,
    correctAnswerIndex := jsFindIndex (fun a => a == raw.correctAnswer) answers,
    categoryName := raw.category,
    difficulty := raw.difficulty }

/-- Outcome of one HTTP question request: either a response with a
`response_code` and a `results` array, or a rejected promise (network
failure) carrying an error message. -/
inductive HttpResult where
  | ok (responseCode : Nat) (results : List RawQuestion)
  | netError (e : String)
deriving DecidableEq, Repr

/-- `makeQuestionRequest` (question-source.js lines 126-167): a code-4
response throws `Error(4)`; an empty `results` array makes the
parse of `results[0]` throw; otherwise the first record is normalized.
`seeds` supplies the shuffle's random indices. -/
def makeQuestionRequest (http : HttpResult) (seeds : List Nat) :
    Except String TriviaQuestion :=
  match http with
  | HttpResult.netError e => Except.error e
  | HttpResult.ok code results =>
    if code == 4 then Except.error "4"
    else
      match results with
      | [] => Except.error "TypeError"
      | raw :: _ => Except.ok (normalizeQuestion raw seeds)

/-- The HTTP requests `getTriviaQuestionAsync` can issue, in order. -/
inductive Req where
  | question (token : Option String)
  | tokenRequest
  | tokenReset
deriving DecidableEq, Repr

/-- The outside world's answers to the (at most) one token request and two
question requests a single `getTriviaQuestionAsync` call can make. -/
structure FetchEnv where
  first : HttpResult
  seeds1 : List Nat
  tokenResp : Except String String
  second : HttpResult
  seeds2 : List Nat

/-- Result of a fetch: what the caller sees, the requests issued, and the
final content of `sessionTokens[room.id]`. -/
structure FetchOutcome where
  result : Except String TriviaQuestion
  trace : List Req
  cachedToken : Option String
deriving Repr

/-- `getTokenThenRequestQuestion` (question-source.js lines 169-185) together
with `getSessionTokenForRoom` (lines 111-124): issue a token reset when a
token is cached, a fresh token request otherwise; on token failure surface
the error; on token success cache the token and issue one question request
whose result — success or any failure — goes straight to the caller. -/
def getTokenThenRequestQuestion (cached : Option String)
    (tokenResp : Except String String) (http : HttpResult) (seeds : List Nat) :
    FetchOutcome :=
  let tokReq := if cached.isSome then Req.tokenReset else Req.tokenRequest
  match tokenResp with
  | Except.error e => { result := Except.error e, trace := [tokReq], cachedToken := cached }
  | Except.ok t =>
    { result := makeQuestionRequest http seeds,
      trace := [tokReq, Req.question (some t)],
      cachedToken := some t }

/-- `getTriviaQuestionAsync` (question-source.js lines 25-61): with a cached
token, one question request; if it fails with message `4`, reset the token
and retry once via `getTokenThenRequestQuestion`; any other failure goes to
the caller unmodified.  Without a cached token, get a token first. -/
def getTriviaQuestionAsync (cached : Option String) (env : FetchEnv) : FetchOutcome :=
  match cached with
  | some tok =>
    match makeQuestionRequest env.first env.seeds1 with
    | Except.ok q =>
      { result := Except.ok q, trace := [Req.question (some tok)], cachedToken := some tok }
    | Except.error e =>
      if e == "4" then
        let rest := getTokenThenRequestQuestion (some tok) env.tokenResp env.second env.seeds2
        { rest with trace := Req.question (some tok) :: rest.trace }
      else
        { result := Except.error e, trace := [Req.question (some tok)],
          cachedToken := some tok }
  | none => getTokenThenRequestQuestion none env.tokenResp env.first env.seeds1

/-- Number of question requests in a trace. -/
def questionReqCount (trace : List Req) : Nat :=
  trace.countP (fun r => match r with | Req.question _ => true | _ => false)

/-- Number of token resets in a trace. -/
def tokenResetCount (trace : List Req) : Nat :=
  trace.countP (fun r => match r with | Req.tokenReset => true | _ => false)

/-- For a 3-element list: how many of the 27 equally likely random-index
sequences make the shuffle produce `target`. -/
def seedCount3 (l target : List Nat) : Nat :=
  ((Finset.univ : Finset (Fin 3 × Fin 3 × Fin 3)).filter
    (fun s => shuffle [s.1.val, s.2.1.val, s.2.2.val] l = target)).card

/-! ### Concrete fixtures used by witnesses and counterexamples -/

/-- A configuration with `maxSeconds = 30`, skips allowed, three questions. -/
def cfgA : RoomConfiguration :=
  { category := none, difficulty := none, maxSeconds := 30,
    canSkipQuestions := true, questionCount := 3 }

/-- The same configuration with unlimited questions (`questionCount = 0`). -/
def cfgUnlimited : RoomConfiguration :=
  { cfgA with questionCount := 0 }

/-- Statistics of a member who has been playing for a while and currently
has answer 2 selected. -/
def statsMidGame : UserStatistics :=
  { points := 50, pointsChange := 10, questionsRight := 3, questionsWrong := 1,
    selectedAnswerIndex := 2 }

/-- A room in which alice is already a member with mid-game statistics. -/
def roomAlice : Room :=
  { users := ["alice"], userStats := [("alice", statsMidGame)],
    listeners := ["alice"], secondsLeft := 10, currentQuestion := none,
    acceptAnswers := true, questionsAnswered := 1, config := cfgA }

/-- The same room at a moment where alice has not yet selected an answer. -/
def roomAnswerable : Room :=
  { roomAlice with userStats := [("alice", UserStatistics.fresh)] }

/-- A freshly created empty room with the three-question configuration. -/
def roomFresh : Room :=
  { users := [], userStats := [], listeners := [], secondsLeft := 30,
    currentQuestion := none, acceptAnswers := true, questionsAnswered := 0,
    config := cfgA }

/-- A freshly created empty room with unlimited questions. -/
def roomUnlimited : Room :=
  { roomFresh with config := cfgUnlimited }

/-- A sample question: medium difficulty, correct answer at index 1. -/
def qSample : TriviaQuestion :=
  { question := "Q", answers := ["w1", "ok", "w2"], correctAnswerIndex := 1,
    categoryName := "General", difficulty := difficultyMedium }

/-- A sample raw supplier record. -/
def rawSample : RawQuestion :=
  { question := "Q", correctAnswer := "ok", incorrectAnswers := ["w1", "w2"],
    category := "General", difficulty := difficultyMedium }

/-- A fetch environment: the first question request answers with the
token-exhausted code 4, the token reset succeeds, and the retried request
succeeds. -/
def envTokenExhausted : FetchEnv :=
  { first := HttpResult.ok 4 [], seeds1 := [],
    tokenResp := Except.ok "tok2",
    second := HttpResult.ok 0 [rawSample], seeds2 := [0, 1, 2] }

/-- A fetch environment whose first question request fails with a network
error. -/
def envNetFail : FetchEnv :=
  { envTokenExhausted with first := HttpResult.netError "ECONNRESET" }

/-! ## Helper lemmas -/

theorem find?_map_replace (m : List (String × UserStatistics)) (k : String)
    (v : UserStatistics) (h : m.any (fun p => p.1 == k) = true) :
    (m.map (fun p => if p.1 == k then (k, v) else p)).find? (fun p => p.1 == k) =
      some (k, v) := by
  induction m with
  | nil => simp at h
  | cons p m ih =>
    simp only [List.map_cons]
    by_cases hp : p.1 = k
    · have e1 : (if p.1 == k then (k, v) else p) = (k, v) := by simp [hp]
      rw [e1, List.find?_cons_of_pos _ (by simp)]
    · have hbeq : (p.1 == k) = false := by simp [hp]
      have e1 : (if p.1 == k then (k, v) else p) = p := by simp [hbeq]
      simp only [List.any_cons, hbeq, Bool.false_or] at h
      rw [e1, List.find?_cons_of_neg _ (by simp [hp]), ih h]

theorem find?_map_replace_ne (m : List (String × UserStatistics)) (k k2 : String)
    (v : UserStatistics) (hne : k2 ≠ k) :
    (m.map (fun p => if p.1 == k then (k, v) else p)).find? (fun p => p.1 == k2) =
      m.find? (fun p => p.1 == k2) := by
  induction m with
  | nil => rfl
  | cons p m ih =>
    simp only [List.map_cons]
    by_cases hp : p.1 = k
    · have e1 : (if p.1 == k then (k, v) else p) = (k, v) := by simp [hp]
      rw [e1, List.find?_cons_of_neg _ (by simp [Ne.symm hne]),
        List.find?_cons_of_neg _ (by simp [hp, Ne.symm hne]), ih]
    · have hbeq : (p.1 == k) = false := by simp [hp]
      have e1 : (if p.1 == k then (k, v) else p) = p := by simp [hbeq]
      rw [e1]
      by_cases hq : p.1 = k2
      · rw [List.find?_cons_of_pos _ (by simp [hq]),
          List.find?_cons_of_pos _ (by simp [hq])]
      · rw [List.find?_cons_of_neg _ (by simp [hq]),
          List.find?_cons_of_neg _ (by simp [hq]), ih]

theorem objGet_objSet_self (m : List (String × UserStatistics)) (k : String)
    (v : UserStatistics) : objGet (objSet m k v) k = some v := by
  unfold objGet objSet
  by_cases h : m.any (fun p => p.1 == k) = true
  · rw [if_pos h, find?_map_replace m k v h]; rfl
  · rw [if_neg h, List.find?_append]
    have hn : m.find? (fun p => p.1 == k) = none := by
      rw [List.find?_eq_none]
      intro x hx hpx
      exact h (List.any_eq_true.mpr ⟨x, hx, hpx⟩)
    rw [hn, List.find?_cons_of_pos _ (by simp)]
    rfl

theorem objGet_objSet_ne (m : List (String × UserStatistics)) (k k2 : String)
    (v : UserStatistics) (hne : k2 ≠ k) :
    objGet (objSet m k v) k2 = objGet m k2 := by
  unfold objGet objSet
  by_cases h : m.any (fun p => p.1 == k) = true
  · rw [if_pos h, find?_map_replace_ne m k k2 v hne]
  · rw [if_neg h, List.find?_append,
      List.find?_cons_of_neg ([] : List (String × UserStatistics))
        (by simp [Ne.symm hne]), List.find?_nil]
    simp

theorem cons_set_perm (t : List α) (k : Nat) (h : k < t.length) (a : α) :
    List.Perm (t.get ⟨k, h⟩ :: t.set k a) (a :: t) := by
  induction t generalizing k with
  | nil => simp at h
  | cons b t ih =>
    cases k with
    | zero => simpa using List.Perm.swap a b t
    | succ k =>
      have hk : k < t.length := by simpa using h
      have step1 : List.Perm (t.get ⟨k, hk⟩ :: b :: t.set k a)
          (b :: t.get ⟨k, hk⟩ :: t.set k a) := List.Perm.swap b (t.get ⟨k, hk⟩) _
      have step2 : List.Perm (b :: t.get ⟨k, hk⟩ :: t.set k a) (b :: a :: t) :=
        (List.perm_cons b).mpr (ih k hk)
      have step3 : List.Perm (b :: a :: t) (a :: b :: t) := List.Perm.swap a b t
      simpa using (step1.trans step2).trans step3

theorem set_set_perm (l : List α) (i j : Nat) (hi : i < l.length) (hj : j < l.length) :
    List.Perm ((l.set i (l.get ⟨j, hj⟩)).set j (l.get ⟨i, hi⟩)) l := by
  induction l generalizing i j with
  | nil => simp at hi
  | cons b t ih =>
    cases i with
    | zero =>
      cases j with
      | zero => simp
      | succ k =>
        have hk : k < t.length := by simpa using hj
        simpa using cons_set_perm t k hk b
    | succ m =>
      have hm : m < t.length := by simpa using hi
      cases j with
      | zero => simpa using cons_set_perm t m hm b
      | succ k =>
        have hk : k < t.length := by simpa using hj
        simpa using (List.perm_cons b).mpr (ih m k hm hk)

theorem jsSwap_perm (l : List α) (i j : Nat) : List.Perm (jsSwap l i j) l := by
  unfold jsSwap
  cases hi : l[i]? with
  | none => exact List.Perm.refl l
  | some a =>
    cases hj : l[j]? with
    | none => exact List.Perm.refl l
    | some b =>
      obtain ⟨hi2, ha⟩ := List.getElem?_eq_some.mp hi
      obtain ⟨hj2, hb⟩ := List.getElem?_eq_some.mp hj
      subst ha hb
      simpa using set_set_perm l i j hi2 hj2

theorem shuffleFrom_perm (seeds : List Nat) :
    ∀ (l : List α) (i : Nat), List.Perm (shuffleFrom l i seeds) l := by
  induction seeds with
  | nil => intro l i; exact List.Perm.refl l
  | cons j rest ih =>
    intro l i
    exact (ih (jsSwap l i j) (i + 1)).trans (jsSwap_perm l i j)

theorem shuffle_perm (seeds : List Nat) (l : List α) :
    List.Perm (shuffle seeds l) l :=
  shuffleFrom_perm seeds l 0

theorem gradeAll_fields (r : Room) :
    r.gradeAll.questionsAnswered = r.questionsAnswered ∧
    r.gradeAll.config = r.config := by
  unfold Room.gradeAll
  cases r.currentQuestion <;> simp

theorem timerExpire_fst (r : Room) :
    r.timerExpire.1 = Room.gradeAll
      { r with questionsAnswered := r.questionsAnswered + 1, acceptAnswers := false } := by
  unfold Room.timerExpire
  dsimp only
  split <;> rfl

theorem timerExpire_fields (r : Room) :
    r.timerExpire.1.questionsAnswered = r.questionsAnswered + 1 ∧
    r.timerExpire.1.config = r.config := by
  rw [timerExpire_fst]
  have h := gradeAll_fields
    { r with questionsAnswered := r.questionsAnswered + 1, acceptAnswers := false }
  simpa using h

theorem runPasses_fields (n : Nat) : ∀ r : Room,
    (r.runPasses n).questionsAnswered = r.questionsAnswered + n ∧
    (r.runPasses n).config = r.config := by
  induction n with
  | zero => intro r; simp [Room.runPasses]
  | succ n ih =>
    intro r
    have h := timerExpire_fields r
    rw [Room.runPasses]
    refine ⟨?_, ?_⟩
    · rw [(ih _).1, h.1]; omega
    · rw [(ih _).2, h.2]

/-! ## Claim theorems -/

/-- C9 — for every member and every grading pass, the points value after the
stats update is at least 0: the update adds `pointsChange` and then floors
at zero, so `points` is never negative at any observation point. -/
theorem points_nonneg_after_grading (stats : UserStatistics) (q : TriviaQuestion)
    (cfg : RoomConfiguration) : 0 ≤ ((gradeMember stats q cfg).1).points := by
  unfold gradeMember
  dsimp only
  split
  · dsimp only; split <;> dsimp only <;> omega
  · split
    · dsimp only; split <;> dsimp only <;> omega
    · dsimp only; split <;> dsimp only <;> omega

/-- C6 — the grading cases: no selection with skips allowed gives SKIPPED
with `pointsChange = 0` and one more wrong answer; otherwise a selection
matching `correctAnswerIndex` adds the question's point value (easy 10,
medium 25, hard 50, unknown 0) and counts a right answer, and a mismatch
subtracts that value and counts a wrong answer, with points floored at
zero. -/
theorem gradeMember_cases (stats : UserStatistics) (q : TriviaQuestion)
    (cfg : RoomConfiguration) :
    (stats.selectedAnswerIndex = -1 → cfg.canSkipQuestions = true →
      (gradeMember stats q cfg).2 = answerSkipped ∧
      ((gradeMember stats q cfg).1).pointsChange = 0 ∧
      ((gradeMember stats q cfg).1).questionsWrong = stats.questionsWrong + 1 ∧
      ((gradeMember stats q cfg).1).questionsRight = stats.questionsRight) ∧
    (¬(stats.selectedAnswerIndex = -1 ∧ cfg.canSkipQuestions = true) →
      stats.selectedAnswerIndex = q.correctAnswerIndex →
      (gradeMember stats q cfg).2 = answerCorrect ∧
      ((gradeMember stats q cfg).1).pointsChange = q.getPointValue ∧
      ((gradeMember stats q cfg).1).points = max 0 (stats.points + q.getPointValue) ∧
      ((gradeMember stats q cfg).1).questionsRight = stats.questionsRight + 1 ∧
      ((gradeMember stats q cfg).1).questionsWrong = stats.questionsWrong) ∧
    (¬(stats.selectedAnswerIndex = -1 ∧ cfg.canSkipQuestions = true) →
      stats.selectedAnswerIndex ≠ q.correctAnswerIndex →
      (gradeMember stats q cfg).2 = answerIncorrect ∧
      ((gradeMember stats q cfg).1).pointsChange = -q.getPointValue ∧
      ((gradeMember stats q cfg).1).points = max 0 (stats.points - q.getPointValue) ∧
      ((gradeMember stats q cfg).1).questionsWrong = stats.questionsWrong + 1 ∧
      ((gradeMember stats q cfg).1).questionsRight = stats.questionsRight) ∧
    (q.difficulty = difficultyEasy → q.getPointValue = 10) ∧
    (q.difficulty = difficultyMedium → q.getPointValue = 25) ∧
    (q.difficulty = difficultyHard → q.getPointValue = 50) ∧
    (q.difficulty ≠ difficultyEasy → q.difficulty ≠ difficultyMedium →
      q.difficulty ≠ difficultyHard → q.getPointValue = 0) := by
  refine ⟨?_, ?_, ?_, ?_, ?_, ?_, ?_⟩
  · intro h1 h2
    have hc : (stats.selectedAnswerIndex == -1 && cfg.canSkipQuestions) = true := by
      simp [h1, h2]
    unfold gradeMember
    rw [if_pos hc]
    dsimp only
    split <;> dsimp only <;> exact ⟨rfl, rfl, rfl, rfl⟩
  · intro h1 h2
    have hc : (stats.selectedAnswerIndex == -1 && cfg.canSkipQuestions) = false := by
      by_cases hskip : cfg.canSkipQuestions = true
      · have : ¬stats.selectedAnswerIndex = -1 := fun he => h1 ⟨he, hskip⟩
        simp [this]
      · simp [Bool.eq_false_iff.mpr hskip]
    have hm : (stats.selectedAnswerIndex == q.correctAnswerIndex) = true := by
      simp [h2]
    unfold gradeMember
    rw [if_neg (by simp [hc]), if_pos hm]
    dsimp only
    split <;> rename_i hcond <;> dsimp only <;>
      exact ⟨rfl, rfl, by omega, rfl, rfl⟩
  · intro h1 h2
    have hc : (stats.selectedAnswerIndex == -1 && cfg.canSkipQuestions) = false := by
      by_cases hskip : cfg.canSkipQuestions = true
      · have : ¬stats.selectedAnswerIndex = -1 := fun he => h1 ⟨he, hskip⟩
        simp [this]
      · simp [Bool.eq_false_iff.mpr hskip]
    have hm : (stats.selectedAnswerIndex == q.correctAnswerIndex) = false := by
      simp [h2]
    unfold gradeMember
    rw [if_neg (by simp [hc]), if_neg (by simp [hm])]
    dsimp only
    split <;> rename_i hcond <;> dsimp only <;>
      exact ⟨rfl, rfl, by omega, rfl, rfl⟩
  · intro h; unfold TriviaQuestion.getPointValue; rw [if_pos h]
  · intro h
    unfold TriviaQuestion.getPointValue
    by_cases he : q.difficulty = difficultyEasy
    · rw [difficultyEasy, difficultyMedium] at *; simp_all
    · rw [if_neg he, if_pos h]
  · intro h
    unfold TriviaQuestion.getPointValue
    by_cases he : q.difficulty = difficultyEasy
    · rw [difficultyEasy, difficultyHard] at *; simp_all
    · by_cases hm : q.difficulty = difficultyMedium
      · rw [difficultyMedium, difficultyHard] at *; simp_all
      · rw [if_neg he, if_neg hm, if_pos h]
  · intro h1 h2 h3
    unfold TriviaQuestion.getPointValue
    rw [if_neg h1, if_neg h2, if_neg h3]

/-- C7 — an answer submission is recorded only when the member has no
recorded selection and `acceptAnswers` is true; in every other case the room
state is left entirely unchanged, and once `acceptAnswers` is false no
sequence of submissions changes anything for that cycle. -/
theorem submitAnswer_guarded (r : Room) (nick : String) (n : Int) :
    (∀ stats, objGet r.userStats nick = some stats →
      stats.selectedAnswerIndex = -1 → r.acceptAnswers = true →
      objGet ((r.submitAnswer nick n).userStats) nick
          = some { stats with selectedAnswerIndex := n } ∧
      (∀ k, k ≠ nick →
        objGet ((r.submitAnswer nick n).userStats) k = objGet r.userStats k) ∧
      (r.submitAnswer nick n).users = r.users ∧
      (r.submitAnswer nick n).listeners = r.listeners ∧
      (r.submitAnswer nick n).acceptAnswers = r.acceptAnswers ∧
      (r.submitAnswer nick n).secondsLeft = r.secondsLeft ∧
      (r.submitAnswer nick n).currentQuestion = r.currentQuestion ∧
      (r.submitAnswer nick n).questionsAnswered = r.questionsAnswered) ∧
    (r.acceptAnswers = false → r.submitAnswer nick n = r) ∧
    (∀ stats, objGet r.userStats nick = some stats →
      stats.selectedAnswerIndex ≠ -1 → r.submitAnswer nick n = r) ∧
    (objGet r.userStats nick = none → r.submitAnswer nick n = r) ∧
    (r.acceptAnswers = false →
      ∀ subs : List (String × Int),
        subs.foldl (fun s p => s.submitAnswer p.1 p.2) r = r) := by
  have hlock : r.acceptAnswers = false → r.submitAnswer nick n = r := by
    intro hf
    unfold Room.submitAnswer
    cases objGet r.userStats nick with
    | none => rfl
    | some stats => dsimp only; rw [if_neg (by simp [hf])]
  have hlockAll : r.acceptAnswers = false →
      ∀ (nick2 : String) (n2 : Int), r.submitAnswer nick2 n2 = r := by
    intro hf nick2 n2
    unfold Room.submitAnswer
    cases objGet r.userStats nick2 with
    | none => rfl
    | some stats => dsimp only; rw [if_neg (by simp [hf])]
  refine ⟨?_, hlock, ?_, ?_, ?_⟩
  · intro stats hs hsel hacc
    have hcond : (stats.selectedAnswerIndex == -1 && r.acceptAnswers) = true := by
      simp [hsel, hacc]
    unfold Room.submitAnswer
    rw [hs]
    dsimp only
    rw [if_pos hcond]
    dsimp only
    exact ⟨objGet_objSet_self _ _ _,
      fun k hk => objGet_objSet_ne _ _ _ _ hk, rfl, rfl, rfl, rfl, rfl, rfl⟩
  · intro stats hs hsel
    unfold Room.submitAnswer
    rw [hs]
    dsimp only
    rw [if_neg (by simp [hsel])]
  · intro hs
    unfold Room.submitAnswer
    rw [hs]
  · intro hf subs
    induction subs with
    | nil => rfl
    | cons p subs ih =>
      rw [List.foldl_cons, hlockAll hf p.1 p.2]
      exact ih

/-- C7 witness — in a room whose member has no selection yet and which
accepts answers, a submission is recorded. -/
theorem submitAnswer_guarded_witness :
    objGet ((roomAnswerable.submitAnswer "alice" 1).userStats) "alice"
      = some { UserStatistics.fresh with selectedAnswerIndex := 1 } ∧
    (roomAnswerable.submitAnswer "alice" 1).users = roomAnswerable.users :=
  ⟨((submitAnswer_guarded roomAnswerable "alice" 1).1 UserStatistics.fresh
      (by decide) (by decide) (by decide)).1,
   ((submitAnswer_guarded roomAnswerable "alice" 1).1 UserStatistics.fresh
      (by decide) (by decide) (by decide)).2.2.1⟩

/-- C1 counterexample — alice is already a member of `roomAlice`, yet a
repeated `addUser` is not a no-op: her `UserStatistics` entry (and with it
her recorded selection) is overwritten with a fresh record, and one more
answer listener is registered. -/
theorem addUser_rejoin_not_noop :
    roomAlice.isUserInRoom "alice" = true ∧
    objGet roomAlice.userStats "alice" = some statsMidGame ∧
    objGet ((roomAlice.addUser "alice").userStats) "alice"
      = some UserStatistics.fresh ∧
    (roomAlice.addUser "alice").userStats ≠ roomAlice.userStats ∧
    (roomAlice.addUser "alice").listeners ≠ roomAlice.listeners := by
  decide

/-- C1 amended — for a user already present, a repeated `addUser` leaves the
member list unchanged but resets the user's statistics entry to a fresh
record (selection -1) and registers one additional answer listener. -/
theorem addUser_rejoin_resets (r : Room) (nick : String)
    (h : r.isUserInRoom nick = true) :
    (r.addUser nick).users = r.users ∧
    objGet ((r.addUser nick).userStats) nick = some UserStatistics.fresh ∧
    (r.addUser nick).listeners = r.listeners ++ [nick] ∧
    (r.addUser nick).acceptAnswers = r.acceptAnswers ∧
    (r.addUser nick).secondsLeft = r.secondsLeft ∧
    (r.addUser nick).currentQuestion = r.currentQuestion ∧
    (r.addUser nick).questionsAnswered = r.questionsAnswered := by
  unfold Room.addUser
  rw [if_pos h]
  dsimp only
  exact ⟨rfl, objGet_objSet_self _ _ _, rfl, rfl, rfl, rfl, rfl⟩

/-- C1 witness — the amended behaviour at the concrete room. -/
theorem addUser_rejoin_resets_witness :
    (roomAlice.addUser "alice").users = roomAlice.users ∧
    objGet ((roomAlice.addUser "alice").userStats) "alice"
      = some UserStatistics.fresh ∧
    (roomAlice.addUser "alice").listeners = roomAlice.listeners ++ ["alice"] ∧
    (roomAlice.addUser "alice").acceptAnswers = roomAlice.acceptAnswers ∧
    (roomAlice.addUser "alice").secondsLeft = roomAlice.secondsLeft ∧
    (roomAlice.addUser "alice").currentQuestion = roomAlice.currentQuestion ∧
    (roomAlice.addUser "alice").questionsAnswered = roomAlice.questionsAnswered :=
  addUser_rejoin_resets roomAlice "alice" (by decide)

/-- C3 amended — installing a freshly fetched question sets
`acceptAnswers = true`, stores the question, broadcasts it with
`questionNumber = questionsAnswered + 1` and
`questionCount = config.questionCount`, but leaves `secondsLeft` at
`config.maxSeconds - 1`: the value is reset to `maxSeconds` and immediately
pre-decremented when the first `seconds left` event is emitted. -/
theorem newQuestion_installs_state (r : Room) (q : TriviaQuestion) :
    ((r.onQuestionSuccess q).1).acceptAnswers = true ∧
    ((r.onQuestionSuccess q).1).currentQuestion = some q ∧
    ((r.onQuestionSuccess q).1).secondsLeft = r.config.maxSeconds - 1 ∧
    (r.onQuestionSuccess q).2 =
      [Event.secondsLeft (r.config.maxSeconds - 1),
       Event.setQuestion q (r.questionsAnswered + 1) r.config.questionCount] := by
  unfold Room.onQuestionSuccess Room.setNewQuestion Room.sendCurrentQuestionToAll
  dsimp only
  exact ⟨rfl, rfl, rfl, rfl⟩

/-- C3 counterexample — with `maxSeconds = 30` the room's `secondsLeft` after
question installation is 29, not `config.maxSeconds`. -/
theorem newQuestion_secondsLeft_not_max :
    roomFresh.config.maxSeconds = 30 ∧
    ((roomFresh.onQuestionSuccess qSample).1).secondsLeft = 29 ∧
    ((roomFresh.onQuestionSuccess qSample).1).secondsLeft
      ≠ roomFresh.config.maxSeconds := by
  decide

/-- C10 — calling `removeUser` with a user who is not in the (non-empty)
room removes the last element of the member list — the most recently joined
member, since `addUser` appends — because `findIndex` returns -1 and
`splice(-1, 1)` deletes from the end. -/
theorem removeUser_absent_removes_last (users : List String) (nick : String)
    (hnm : nick ∉ users) (hne : users ≠ []) :
    removeUserList users nick = users.dropLast ∧
    (removeUserList users nick).length = users.length - 1 := by
  have hfind : users.findIdx? (fun u => u == nick) = none := by
    rw [List.findIdx?_eq_none_iff]
    intro x hx
    simp only [beq_eq_false_iff_ne, ne_eq]
    exact fun hxe => hnm (hxe ▸ hx)
  have hlen : 1 ≤ users.length := List.length_pos.mpr hne
  unfold removeUserList jsFindIndex spliceRemoveOne
  rw [hfind]
  dsimp only
  rw [if_pos (by omega : (-1 : Int) < 0)]
  have hs : (((users.length : Nat) : Int) + (-1)).toNat = users.length - 1 := by
    omega
  rw [hs]
  constructor
  · have h1 : users.length - 1 + 1 = users.length := by omega
    rw [h1, List.drop_length, List.append_nil, List.dropLast_eq_take]
  · rw [List.length_append, List.length_take, List.length_drop]
    omega

/-- C10 witness — removing an absent user from a three-member room drops the
most recently joined member. -/
theorem removeUser_absent_removes_last_witness :
    removeUserList ["ann", "bob", "cat"] "zoe"
      = (["ann", "bob", "cat"] : List String).dropLast ∧
    (removeUserList ["ann", "bob", "cat"] "zoe").length
      = (["ann", "bob", "cat"] : List String).length - 1 :=
  removeUser_absent_removes_last ["ann", "bob", "cat"] "zoe" (by decide) (by decide)

/-- JS NaN comparison helpers: comparing with a NaN ratio is always false. -/
theorem jsGt_none_left (y : Option ℚ) : jsGt none y = false := by
  cases y <;> rfl

theorem jsGt_none_right (x : Option ℚ) : jsGt x none = false := by
  cases x <;> rfl

theorem jsLt_none_left (y : Option ℚ) : jsLt none y = false := by
  cases y <;> rfl

theorem jsLt_none_right (x : Option ℚ) : jsLt x none = false := by
  cases x <;> rfl

/-- C2 counterexample — a member with zero answered questions does not rank
lower than an equal-points member with a defined ratio: the NaN ratio makes
both comparisons false and `compareStats` reports a tie (0), not 1. -/
theorem compareStats_zero_questions_ties :
    compareStats ⟨"A", 100, 0, 0⟩ ⟨"B", 100, 1, 1⟩ = 0 ∧
    compareStats ⟨"B", 100, 1, 1⟩ ⟨"A", 100, 0, 0⟩ = 0 ∧
    compareStats ⟨"A", 100, 0, 0⟩ ⟨"B", 100, 1, 1⟩ ≠ 1 := by
  have hA : accuracyOf ⟨"A", 100, 0, 0⟩ = none := rfl
  have h1 : compareStats ⟨"A", 100, 0, 0⟩ ⟨"B", 100, 1, 1⟩ = 0 := by
    unfold compareStats
    have hng : ¬((100 : Int) > 100) := by omega
    have hnl : ¬((100 : Int) < 100) := by omega
    rw [if_neg hng, if_neg hnl]
    dsimp only
    rw [hA, jsGt_none_left, jsLt_none_left]
    simp
  have h2 : compareStats ⟨"B", 100, 1, 1⟩ ⟨"A", 100, 0, 0⟩ = 0 := by
    unfold compareStats
    have hng : ¬((100 : Int) > 100) := by omega
    have hnl : ¬((100 : Int) < 100) := by omega
    rw [if_neg hng, if_neg hnl]
    dsimp only
    rw [hA, jsGt_none_right, jsLt_none_right]
    simp
  exact ⟨h1, h2, by rw [h1]; decide⟩

/-- C2 amended — the game-over comparator orders by descending points, then
by descending accuracy ratio when both members have answered at least one
question (in particular 100 points with ratio 1 ranks above 100 points with
ratio 1/2); when either member has answered zero questions the ratio
comparison is a NaN comparison and the comparator reports a tie. -/
theorem compareStats_ordering (a b : MemberStats) :
    (a.points > b.points → compareStats a b = -1) ∧
    (a.points < b.points → compareStats a b = 1) ∧
    (∀ x y : ℚ, a.points = b.points → accuracyOf a = some x →
      accuracyOf b = some y →
      ((x > y → compareStats a b = -1) ∧ (x < y → compareStats a b = 1) ∧
       (x = y → compareStats a b = 0))) ∧
    (a.points = b.points → (accuracyOf a = none ∨ accuracyOf b = none) →
      compareStats a b = 0) ∧
    compareStats ⟨"A", 100, 2, 0⟩ ⟨"B", 100, 1, 1⟩ = -1 := by
  have example2 : compareStats ⟨"A", 100, 2, 0⟩ ⟨"B", 100, 1, 1⟩ = -1 := by
    unfold compareStats
    have hng : ¬((100 : Int) > 100) := by omega
    have hnl : ¬((100 : Int) < 100) := by omega
    rw [if_neg hng, if_neg hnl]
    dsimp only
    have hA : accuracyOf ⟨"A", 100, 2, 0⟩ = some 1 := by
      unfold accuracyOf
      norm_num
    have hB : accuracyOf ⟨"B", 100, 1, 1⟩ = some (1 / 2) := by
      unfold accuracyOf
      norm_num
    rw [hA, hB]
    have hgt : jsGt (some (1 : ℚ)) (some (1 / 2)) = true := by
      unfold jsGt
      rw [decide_eq_true_eq]
      norm_num
    rw [if_pos hgt]
  refine ⟨?_, ?_, ?_, ?_, example2⟩
  · intro h
    unfold compareStats
    rw [if_pos h]
  · intro h
    have hng : ¬a.points > b.points := by omega
    unfold compareStats
    rw [if_neg hng, if_pos h]
  · intro x y hp hax hby
    have hng : ¬a.points > b.points := by omega
    have hnl : ¬a.points < b.points := by omega
    unfold compareStats
    rw [if_neg hng, if_neg hnl]
    dsimp only
    rw [hax, hby]
    refine ⟨?_, ?_, ?_⟩
    · intro hgt
      have hg : jsGt (some x) (some y) = true := by
        unfold jsGt
        rw [decide_eq_true_eq]
        exact hgt
      rw [if_pos hg]
    · intro hlt
      have hg : jsGt (some x) (some y) = false := by
        unfold jsGt
        rw [decide_eq_false_iff_not]
        exact not_lt_of_gt hlt
      have hl : jsLt (some x) (some y) = true := by
        unfold jsLt
        rw [decide_eq_true_eq]
        exact hlt
      rw [if_neg (by simp [hg]), if_pos hl]
    · intro heq
      have hg : jsGt (some x) (some y) = false := by
        unfold jsGt
        rw [decide_eq_false_iff_not]
        rw [heq]
        exact lt_irrefl y
      have hl : jsLt (some x) (some y) = false := by
        unfold jsLt
        rw [decide_eq_false_iff_not]
        rw [heq]
        exact lt_irrefl y
      rw [if_neg (by simp [hg]), if_neg (by simp [hl])]
  · intro hp hnone
    have hng : ¬a.points > b.points := by omega
    have hnl : ¬a.points < b.points := by omega
    unfold compareStats
    rw [if_neg hng, if_neg hnl]
    dsimp only
    rcases hnone with h | h
    · rw [h, jsGt_none_left, jsLt_none_left]
      simp
    · rw [h, jsGt_none_right, jsLt_none_right]
      simp
/-- C2 witness — the tie-break example: 100 points with 2 right, 0 wrong
ranks above 100 points with 1 right, 1 wrong. -/
theorem compareStats_ordering_witness :
    compareStats ⟨"A", 100, 2, 0⟩ ⟨"B", 100, 1, 1⟩ = -1 :=
  ((compareStats_ordering ⟨"A", 100, 2, 0⟩ ⟨"B", 100, 1, 1⟩).2.2.1
      1 (1 / 2) rfl (by unfold accuracyOf; norm_num)
      (by unfold accuracyOf; norm_num)).1 (by norm_num)

/-- The action chosen when the countdown expires, in terms of the counters
before the pass. -/
theorem timerExpire_snd (r : Room) :
    r.timerExpire.2 =
      (if (r.questionsAnswered + 1 == r.config.questionCount &&
           r.config.questionCount != 0) = true then TimerAction.gameOver
       else TimerAction.requestNewQuestion) := by
  have h := gradeAll_fields
    { r with questionsAnswered := r.questionsAnswered + 1, acceptAnswers := false }
  unfold Room.timerExpire
  dsimp only
  unfold Room.isGameOver
  rw [h.1, h.2]
  dsimp only
  cases hb : (r.questionsAnswered + 1 == r.config.questionCount &&
      r.config.questionCount != 0) <;> simp [hb]

/-- C8 — a room with `questionCount = 0` never satisfies the game-over
condition after any number of grading passes, while a room with
`questionCount = 3` that starts at zero answered questions satisfies it
exactly after the third pass, where the expiry step chooses the game-over
action instead of requesting a fourth question. -/
theorem gameOver_exactly_at_questionCount (r : Room) :
    (r.config.questionCount = 0 → ∀ n, (r.runPasses n).isGameOver = false) ∧
    (r.config.questionCount = 3 → r.questionsAnswered = 0 →
      (∀ n, ((r.runPasses n).isGameOver = true ↔ n = 3)) ∧
      (r.runPasses 0).timerExpire.2 = TimerAction.requestNewQuestion ∧
      (r.runPasses 1).timerExpire.2 = TimerAction.requestNewQuestion ∧
      (r.runPasses 2).timerExpire.2 = TimerAction.gameOver ∧
      (r.runPasses 3).isGameOver = true) := by
  constructor
  · intro h0 n
    unfold Room.isGameOver
    rw [(runPasses_fields n r).2, h0]
    simp
  · intro h3 hqa
    have hgo : ∀ n, (r.runPasses n).isGameOver = true ↔ n = 3 := by
      intro n
      unfold Room.isGameOver
      rw [(runPasses_fields n r).1, (runPasses_fields n r).2, h3, hqa]
      simp
    have hact : ∀ k, (r.runPasses k).timerExpire.2 =
        (if (k + 1 == 3 && (3 : Nat) != 0) = true then TimerAction.gameOver
         else TimerAction.requestNewQuestion) := by
      intro k
      rw [timerExpire_snd, (runPasses_fields k r).1, (runPasses_fields k r).2,
        h3, hqa]
      norm_num
    refine ⟨hgo, ?_, ?_, ?_, (hgo 3).mpr rfl⟩
    · rw [hact 0]; rfl
    · rw [hact 1]; rfl
    · rw [hact 2]; rfl

/-- C8 witness — the unlimited room is not game-over after five passes; the
three-question room is game-over exactly after the third pass and its third
expiry chooses the game-over action. -/
theorem gameOver_exactly_witness :
    (roomUnlimited.runPasses 5).isGameOver = false ∧
    ((roomFresh.runPasses 2).isGameOver = false) ∧
    ((roomFresh.runPasses 3).isGameOver = true) ∧
    (roomFresh.runPasses 1).timerExpire.2 = TimerAction.requestNewQuestion ∧
    (roomFresh.runPasses 2).timerExpire.2 = TimerAction.gameOver :=
  ⟨(gameOver_exactly_at_questionCount roomUnlimited).1 rfl 5,
   by
    have h := (((gameOver_exactly_at_questionCount roomFresh).2 rfl rfl).1 2)
    cases hb : (roomFresh.runPasses 2).isGameOver with
    | false => rfl
    | true => exact absurd (h.mp hb) (by decide),
   ((gameOver_exactly_at_questionCount roomFresh).2 rfl rfl).1 3 |>.mpr rfl,
   ((gameOver_exactly_at_questionCount roomFresh).2 rfl rfl).2.2.1,
   ((gameOver_exactly_at_questionCount roomFresh).2 rfl rfl).2.2.2.1⟩

/-- C4 — with a cached token, a code-4 (token exhausted) response triggers
exactly one token reset and exactly one retried question request, whose
outcome — success or failure — is final; any other failure of the first
request is surfaced unmodified with no token reset and the cache kept. -/
theorem fetch_token_exhausted_single_retry (tok : String) (env : FetchEnv) :
    (∀ rs, env.first = HttpResult.ok 4 rs →
      tokenResetCount (getTriviaQuestionAsync (some tok) env).trace = 1 ∧
      (∀ t, env.tokenResp = Except.ok t →
        (getTriviaQuestionAsync (some tok) env).trace =
          [Req.question (some tok), Req.tokenReset, Req.question (some t)] ∧
        questionReqCount (getTriviaQuestionAsync (some tok) env).trace = 2 ∧
        (getTriviaQuestionAsync (some tok) env).result =
          makeQuestionRequest env.second env.seeds2 ∧
        (getTriviaQuestionAsync (some tok) env).cachedToken = some t) ∧
      (∀ e, env.tokenResp = Except.error e →
        (getTriviaQuestionAsync (some tok) env).trace =
          [Req.question (some tok), Req.tokenReset] ∧
        (getTriviaQuestionAsync (some tok) env).result = Except.error e ∧
        (getTriviaQuestionAsync (some tok) env).cachedToken = some tok)) ∧
    (∀ e, makeQuestionRequest env.first env.seeds1 = Except.error e → e ≠ "4" →
      (getTriviaQuestionAsync (some tok) env).result = Except.error e ∧
      (getTriviaQuestionAsync (some tok) env).trace = [Req.question (some tok)] ∧
      tokenResetCount (getTriviaQuestionAsync (some tok) env).trace = 0 ∧
      (getTriviaQuestionAsync (some tok) env).cachedToken = some tok) := by
  constructor
  · intro rs h4
    have hm : makeQuestionRequest env.first env.seeds1 = Except.error "4" := by
      rw [h4]; rfl
    refine ⟨?_, ?_, ?_⟩
    · cases ht : env.tokenResp with
      | ok t =>
        have hout : getTriviaQuestionAsync (some tok) env =
            { result := makeQuestionRequest env.second env.seeds2,
              trace := [Req.question (some tok), Req.tokenReset,
                Req.question (some t)],
              cachedToken := some t } := by
          unfold getTriviaQuestionAsync getTokenThenRequestQuestion
          rw [hm, ht]
          rfl
        rw [hout]
        rfl
      | error e =>
        have hout : getTriviaQuestionAsync (some tok) env =
            { result := Except.error e,
              trace := [Req.question (some tok), Req.tokenReset],
              cachedToken := some tok } := by
          unfold getTriviaQuestionAsync getTokenThenRequestQuestion
          rw [hm, ht]
          rfl
        rw [hout]
        rfl
    · intro t ht
      have hout : getTriviaQuestionAsync (some tok) env =
          { result := makeQuestionRequest env.second env.seeds2,
            trace := [Req.question (some tok), Req.tokenReset,
              Req.question (some t)],
            cachedToken := some t } := by
        unfold getTriviaQuestionAsync getTokenThenRequestQuestion
        rw [hm, ht]
        rfl
      exact ⟨by rw [hout], by rw [hout]; rfl, by rw [hout], by rw [hout]⟩
    · intro e ht
      have hout : getTriviaQuestionAsync (some tok) env =
          { result := Except.error e,
            trace := [Req.question (some tok), Req.tokenReset],
            cachedToken := some tok } := by
        unfold getTriviaQuestionAsync getTokenThenRequestQuestion
        rw [hm, ht]
        rfl
      exact ⟨by rw [hout], by rw [hout], by rw [hout]⟩
  · intro e he hne
    have hb : ¬(e == "4") = true := by
      simp only [beq_iff_eq]
      exact hne
    have hout : getTriviaQuestionAsync (some tok) env =
        { result := Except.error e, trace := [Req.question (some tok)],
          cachedToken := some tok } := by
      unfold getTriviaQuestionAsync
      rw [he]
      dsimp only
      rw [if_neg hb]
    exact ⟨by rw [hout], by rw [hout], by rw [hout]; rfl, by rw [hout]⟩

/-- C4 witness — the concrete exhausted-token environment: one reset, one
retried request, and the retried outcome is final. -/
theorem fetch_token_exhausted_witness :
    tokenResetCount (getTriviaQuestionAsync (some "tok1") envTokenExhausted).trace
      = 1 ∧
    (getTriviaQuestionAsync (some "tok1") envTokenExhausted).trace =
      [Req.question (some "tok1"), Req.tokenReset, Req.question (some "tok2")] ∧
    questionReqCount (getTriviaQuestionAsync (some "tok1") envTokenExhausted).trace
      = 2 ∧
    (getTriviaQuestionAsync (some "tok1") envTokenExhausted).result =
      makeQuestionRequest envTokenExhausted.second envTokenExhausted.seeds2 ∧
    (getTriviaQuestionAsync (some "tok1") envTokenExhausted).cachedToken
      = some "tok2" :=
  ⟨((fetch_token_exhausted_single_retry "tok1" envTokenExhausted).1 [] rfl).1,
   (((fetch_token_exhausted_single_retry "tok1" envTokenExhausted).1 [] rfl).2.1
      "tok2" rfl).1,
   (((fetch_token_exhausted_single_retry "tok1" envTokenExhausted).1 [] rfl).2.1
      "tok2" rfl).2.1,
   (((fetch_token_exhausted_single_retry "tok1" envTokenExhausted).1 [] rfl).2.1
      "tok2" rfl).2.2.1,
   (((fetch_token_exhausted_single_retry "tok1" envTokenExhausted).1 [] rfl).2.1
      "tok2" rfl).2.2.2⟩

/-- C5 counterexample — the swap shuffle is not a uniform random
permutation: over the 27 equally likely random-index sequences for a
3-element list, the identity arrangement is produced by 4 of them while the
arrangement [0, 2, 1] is produced by 5, so two permutations of the same
input have different probabilities. -/
theorem shuffle_not_uniform :
    List.Perm [0, 2, 1] [0, 1, 2] ∧
    seedCount3 [0, 1, 2] [0, 1, 2] = 4 ∧
    seedCount3 [0, 1, 2] [0, 2, 1] = 5 ∧
    seedCount3 [0, 1, 2] [0, 1, 2] ≠ seedCount3 [0, 1, 2] [0, 2, 1] := by
  refine ⟨by decide, by decide, by decide, by decide⟩

/-- C5 amended — normalization preserves the multiset of answer texts (the
incorrect answers plus the correct answer, rearranged by the swap shuffle,
which is not uniform), and `correctAnswerIndex` is the first index at which
the answer list holds the originally-correct text. -/
theorem normalizeQuestion_perm_and_first_index (raw : RawQuestion)
    (seeds : List Nat) :
    List.Perm ((normalizeQuestion raw seeds).answers)
      (raw.incorrectAnswers ++ [raw.correctAnswer]) ∧
    ∃ i : Nat, (normalizeQuestion raw seeds).correctAnswerIndex = (i : Int) ∧
      ((normalizeQuestion raw seeds).answers)[i]? = some raw.correctAnswer ∧
      ∀ k, k < i →
        ((normalizeQuestion raw seeds).answers)[k]? ≠ some raw.correctAnswer := by
  unfold normalizeQuestion
  dsimp only
  have hperm : List.Perm
      (shuffle seeds (raw.incorrectAnswers ++ [raw.correctAnswer]))
      (raw.incorrectAnswers ++ [raw.correctAnswer]) := shuffle_perm _ _
  have hmem : raw.correctAnswer ∈
      shuffle seeds (raw.incorrectAnswers ++ [raw.correctAnswer]) :=
    hperm.mem_iff.mpr (by simp)
  have hex : ∃ x ∈ shuffle seeds (raw.incorrectAnswers ++ [raw.correctAnswer]),
      (x == raw.correctAnswer) = true := ⟨_, hmem, by simp⟩
  have hlt := List.findIdx_lt_length_of_exists hex
  have hfi := List.findIdx?_eq_some_of_exists hex
  refine ⟨hperm, ⟨(shuffle seeds (raw.incorrectAnswers ++
      [raw.correctAnswer])).findIdx (fun a => a == raw.correctAnswer),
    ?_, ?_, ?_⟩⟩
  · unfold jsFindIndex
    rw [hfi]
  · rw [List.getElem?_eq_getElem hlt]
    have hp := @List.findIdx_getElem _ (fun a => a == raw.correctAnswer)
      (shuffle seeds (raw.incorrectAnswers ++ [raw.correctAnswer])) hlt
    rw [beq_iff_eq] at hp
    rw [hp]
  · intro k hk hcontra
    have hk2 : k < (shuffle seeds
        (raw.incorrectAnswers ++ [raw.correctAnswer])).length :=
      lt_trans hk hlt
    obtain ⟨hb, heq⟩ := List.getElem?_eq_some.mp hcontra
    have hfalse := List.not_of_lt_findIdx hk
    rw [heq] at hfalse
    simp at hfalse

/-- C6 witness — a member with no selection in a skip-allowing room is
graded SKIPPED with no point change and one more wrong answer. -/
theorem gradeMember_cases_witness :
    (gradeMember UserStatistics.fresh qSample cfgA).2 = answerSkipped ∧
    ((gradeMember UserStatistics.fresh qSample cfgA).1).pointsChange = 0 ∧
    ((gradeMember UserStatistics.fresh qSample cfgA).1).questionsWrong
      = UserStatistics.fresh.questionsWrong + 1 ∧
    ((gradeMember UserStatistics.fresh qSample cfgA).1).questionsRight
      = UserStatistics.fresh.questionsRight :=
  (gradeMember_cases UserStatistics.fresh qSample cfgA).1 rfl rfl

end Trivia
